import Mathlib

/-!
Verification development for the `fgm` CLI's request-orchestration layer:
the rate limiter with exponential backoff (`src/api/rate_limit.rs`), the
retrying request executor (`src/api/client.rs`), and the two-tier response
cache (`src/api/cache.rs`).

Machine integers (`u64`, `u32`, `usize`) are modelled as `Nat` with explicit
`% 2 ^ 64` (resp. saturation via `min`) exactly where the Rust code wraps or
saturates.  Timestamps (`i64`) are modelled as `Int`.  Randomness (the
backoff jitter, `rand::random::<f64>()`) is modelled by passing the drawn
jitter value as an explicit argument.  Wall-clock reads
(`chrono::Utc::now().timestamp()`) are modelled by passing `now` explicitly.
-/

/-- The modulus of Rust's `u64` arithmetic, `2 ^ 64`. -/
def U64MOD : Nat := 2 ^ 64

/-- Largest `u64` value, the saturation point of `u64::saturating_mul`. -/
def U64MAX : Nat := 2 ^ 64 - 1

/-! ## RateLimiter (src/api/rate_limit.rs) -/

/-- State of `RateLimiter` (rate_limit.rs, lines 10-23).  `retry_count` and
`max_retries` are `u32`, the delays are `u64` milliseconds, `remaining` is the
parsed `X-RateLimit-Remaining` header and `retry_after` the parsed
`Retry-After` header (seconds). -/
structure RateLimiter where
  retry_count : Nat
  max_retries : Nat
  base_delay_ms : Nat
  max_delay_ms : Nat
  remaining : Option Nat
  retry_after : Option Nat
deriving DecidableEq, Repr

/-- Embeds `RateLimiter::default` / `RateLimiter::new` (rate_limit.rs, lines 36-53). -/
def RateLimiter.new : RateLimiter :=
  { retry_count := 0
    max_retries := 5
    base_delay_ms := 1000
    max_delay_ms := 120000
    remaining := none
    retry_after := none }

/-- Embeds `RateLimiter::with_config` (rate_limit.rs, lines 56-65). -/
def RateLimiter.with_config (max_retries base_delay_ms max_delay_ms : Nat) : RateLimiter :=
  { retry_count := 0
    max_retries := max_retries
    base_delay_ms := base_delay_ms
    max_delay_ms := max_delay_ms
    remaining := none
    retry_after := none }

/-- An HTTP response as seen by this layer: its status code and the two
rate-limit headers after parsing (`None` models a missing or unparsable
header, mirroring the `and_then`/`ok` chains in `parse_headers`). -/
structure HttpResponse where
  status : Nat
  remaining : Option Nat
  retry_after : Option Nat
deriving DecidableEq, Repr

/-- Result of `RateLimiter::parse_headers` (rate_limit.rs, lines 27-34). -/
structure RateLimitInfo where
  remaining : Option Nat
  retry_after : Option Nat
  is_rate_limited : Bool
deriving DecidableEq, Repr

/-- Embeds `RateLimiter::parse_headers` (rate_limit.rs, lines 72-94): stores both
header values (overwriting with `None` when absent) and reports whether the
response status is 429. -/
def RateLimiter.parse_headers (rl : RateLimiter) (resp : HttpResponse) :
    RateLimitInfo × RateLimiter :=
  let rl' := { rl with remaining := resp.remaining, retry_after := resp.retry_after }
  (⟨resp.remaining, resp.retry_after, resp.status == 429⟩, rl')

/-- Embeds `RateLimiter::should_throttle` (rate_limit.rs, lines 97-99). -/
def RateLimiter.should_throttle (rl : RateLimiter) : Bool :=
  match rl.remaining with
  | some remaining => remaining < 10
  | none => false

/-- Embeds `RateLimiter::calculate_delay` (rate_limit.rs, lines 105-119), in
milliseconds.  `jitter` is the value of
`(rand::random::<f64>() * 0.25 * capped_delay as f64) as u64` — the random
draw is an input of the model.  `2u64.pow` wraps modulo `2^64` (release-mode
overflow semantics), `saturating_mul` saturates at `u64::MAX`, and the final
`capped_delay + jitter` is a wrapping `u64` addition.  A server-supplied
`Retry-After` of `s` seconds yields `Duration::from_secs(s)`, i.e. `s * 1000`
milliseconds, ignoring the jitter argument. -/
def RateLimiter.calculate_delay (rl : RateLimiter) (jitter : Nat) : Nat :=
  match rl.retry_after with
  | some ra => ra * 1000
  | none =>
    let pow2 := (2 ^ rl.retry_count) % U64MOD
    let exp_delay := min (rl.base_delay_ms * pow2) U64MAX
    let capped_delay := min exp_delay rl.max_delay_ms
    (capped_delay + jitter) % U64MOD

/-- Embeds `RateLimiter::wait_and_retry` (rate_limit.rs, lines 122-138) minus the
sleep (traced by the executor): returns whether to retry and the new state. -/
def RateLimiter.wait_and_retry (rl : RateLimiter) : Bool × RateLimiter :=
  if rl.retry_count ≥ rl.max_retries then
    (false, rl)
  else
    (true, { rl with retry_count := rl.retry_count + 1 })

/-- Embeds `RateLimiter::reset` (rate_limit.rs, lines 141-144). -/
def RateLimiter.reset (rl : RateLimiter) : RateLimiter :=
  { rl with retry_count := 0, retry_after := none }

/-! ## Request executor (src/api/client.rs, `FigmaClient::execute_request`) -/

/-- Observable events of one `execute_request` run.  `lockAcquire` /
`lockRelease` delimit the sections during which the `tokio::sync::Mutex`
around the `RateLimiter` is held; `proactiveSleep` is the 500 ms sleep of
`proactive_delay`, `backoffSleep` the backoff sleep inside `wait_and_retry`,
and `httpCall` the outbound `request_fn().send().await`. -/
inductive Event where
  | lockAcquire
  | lockRelease
  | proactiveSleep
  | httpCall
  | backoffSleep
deriving DecidableEq, Repr

/-- Outcome of `execute_request`: a response, the "Rate limit exceeded after
maximum retries" error (client.rs, lines 124-127), or a transport error
propagated by the `?` on `send()`. -/
inductive ExecResult where
  | ok (resp : HttpResponse)
  | rateLimitExceeded
  | sendFailure
deriving DecidableEq, Repr

/-- Result of running the executor: the outcome, the final rate-limiter
state, and the event trace. -/
structure ExecOutcome where
  result : ExecResult
  limiter : RateLimiter
  trace : List Event
deriving DecidableEq, Repr

/-- The first locked section of each loop iteration (client.rs, lines
100-103): the mutex is acquired, then `proactive_delay().await` runs — and
sleeps, when `should_throttle` — before the guard is dropped. -/
def proactivePhase (rl : RateLimiter) : List Event :=
  [Event.lockAcquire] ++
    (if rl.should_throttle then [Event.proactiveSleep] else []) ++
    [Event.lockRelease]

/-- Embeds `FigmaClient::execute_request` (client.rs, lines 94-138), driven by the
list of responses the network returns to the successive attempts.  Each
iteration: proactive-delay section under the lock, the HTTP call (outside the
lock), header parsing under the lock, then either the 429 path — where
`wait_and_retry().await` runs (and sleeps, if retrying) under the lock — or
the reset-and-return path.  An empty response list models a transport failure
of `send()`, propagated by `?`. -/
def executeRequest (rl : RateLimiter) : List HttpResponse → ExecOutcome
  | [] =>
    { result := ExecResult.sendFailure
      limiter := rl
      trace := proactivePhase rl ++ [Event.httpCall] }
  | resp :: rest =>
    let tr1 := proactivePhase rl ++ [Event.httpCall] ++
      [Event.lockAcquire, Event.lockRelease]
    let rl1 := (rl.parse_headers resp).2
    if resp.status == 429 then
      let wr := rl1.wait_and_retry
      let tr2 := tr1 ++ [Event.lockAcquire] ++
        (if wr.1 then [Event.backoffSleep] else []) ++ [Event.lockRelease]
      if wr.1 then
        let r := executeRequest wr.2 rest
        { r with trace := tr2 ++ r.trace }
      else
        { result := ExecResult.rateLimitExceeded, limiter := wr.2, trace := tr2 }
    else
      { result := ExecResult.ok resp
        limiter := rl1.reset
        trace := tr1 ++ [Event.lockAcquire, Event.lockRelease] }

/-- Number of HTTP attempts in a trace. -/
def countHttp : List Event → Nat
  | [] => 0
  | Event.httpCall :: tr => countHttp tr + 1
  | _ :: tr => countHttp tr

/-- Scan a trace keeping the current lock depth, checking a predicate of the
event and the depth at which it occurs. -/
def scanOK (p : Event → Nat → Bool) : List Event → Nat → Bool
  | [], _ => true
  | e :: rest, d =>
    p e d && scanOK p rest
      (match e with
       | Event.lockAcquire => d + 1
       | Event.lockRelease => d - 1
       | _ => d)

/-- The property claimed of the executor: every suspension point (proactive
sleep, backoff sleep) and the HTTP call itself occur while the rate-limiter
lock is NOT held. -/
def suspensionsOutsideLock (tr : List Event) : Bool :=
  scanOK
    (fun e d =>
      match e with
      | Event.proactiveSleep => d == 0
      | Event.backoffSleep => d == 0
      | Event.httpCall => d == 0
      | _ => true)
    tr 0

/-- Every HTTP call in the trace occurs at lock depth 0. -/
def httpOutsideLock (tr : List Event) : Bool :=
  scanOK
    (fun e d =>
      match e with
      | Event.httpCall => d == 0
      | _ => true)
    tr 0

/-- Every sleep in the trace occurs at lock depth exactly 1 (under the lock). -/
def sleepsUnderLock (tr : List Event) : Bool :=
  scanOK
    (fun e d =>
      match e with
      | Event.proactiveSleep => d == 1
      | Event.backoffSleep => d == 1
      | _ => true)
    tr 0

/-! ## SipHash-1-3 (std::collections::hash_map::DefaultHasher)

`CacheKey::hash_node_ids` and `CacheKey::hash_export_params` (cache.rs,
lines 56-75) drive a `DefaultHasher`, which is SipHash-1-3 with both keys 0.
The hasher consumes a byte stream: a slice `&[String]` contributes its length
as an 8-byte little-endian `usize` followed by each string's UTF-8 bytes
terminated by a `0xff` byte; a `&str` contributes its UTF-8 bytes plus
`0xff`; `f32::to_bits` contributes 4 little-endian bytes.  All arithmetic is
on 64-bit words, modelled as `Nat` reduced modulo `2 ^ 64`. -/

/-- Rotate a 64-bit word left by `n` bits. -/
def rotl64 (x n : Nat) : Nat :=
  ((x <<< n) ||| (x >>> (64 - n))) % U64MOD

/-- The four 64-bit words of SipHash state. -/
structure SipState where
  v0 : Nat
  v1 : Nat
  v2 : Nat
  v3 : Nat
deriving DecidableEq, Repr

/-- One SIPROUND. -/
def sipRound (s : SipState) : SipState :=
  let v0 := (s.v0 + s.v1) % U64MOD
  let v1 := rotl64 s.v1 13
  let v1 := v1 ^^^ v0
  let v0 := rotl64 v0 32
  let v2 := (s.v2 + s.v3) % U64MOD
  let v3 := rotl64 s.v3 16
  let v3 := v3 ^^^ v2
  let v0 := (v0 + v3) % U64MOD
  let v3 := rotl64 v3 21
  let v3 := v3 ^^^ v0
  let v2 := (v2 + v1) % U64MOD
  let v1 := rotl64 v1 17
  let v1 := v1 ^^^ v2
  let v2 := rotl64 v2 32
  ⟨v0, v1, v2, v3⟩

/-- Little-endian value of a byte list. -/
def leWord (bs : List Nat) : Nat :=
  bs.foldr (fun b acc => acc * 256 + b) 0

/-- Absorb one 8-byte message word (SipHash-1-3: one round per word). -/
def sipCompress (s : SipState) (m : Nat) : SipState :=
  let s := { s with v3 := s.v3 ^^^ m }
  let s := sipRound s
  { s with v0 := s.v0 ^^^ m }

/-- Absorb all full 8-byte words, returning the state and the leftover bytes. -/
def sipProcess : SipState → List Nat → SipState × List Nat
  | s, b0 :: b1 :: b2 :: b3 :: b4 :: b5 :: b6 :: b7 :: rest =>
    sipProcess (sipCompress s (leWord [b0, b1, b2, b3, b4, b5, b6, b7])) rest
  | s, rest => (s, rest)

/-- SipHash-1-3 with keys `k0 = k1 = 0` (the `DefaultHasher::new` keys) of a
byte stream, as computed by `Hasher::finish`. -/
def siphash13 (bs : List Nat) : Nat :=
  let s0 : SipState :=
    ⟨0x736f6d6570736575, 0x646f72616e646f6d, 0x6c7967656e657261, 0x7465646279746573⟩
  let pr := sipProcess s0 bs
  let b := (((bs.length % 256) <<< 56) ||| leWord pr.2) % U64MOD
  let s := sipCompress pr.1 b
  let s := { s with v2 := s.v2 ^^^ 0xff }
  let s := sipRound (sipRound (sipRound s))
  (s.v0 ^^^ s.v1 ^^^ s.v2 ^^^ s.v3) % U64MOD

/-- UTF-8 encoding of one character (the bytes `str::as_bytes` exposes). -/
def utf8EncChar (c : Char) : List Nat :=
  let n := c.toNat
  if n < 0x80 then [n]
  else if n < 0x800 then
    [0xC0 ||| (n >>> 6), 0x80 ||| (n &&& 0x3F)]
  else if n < 0x10000 then
    [0xE0 ||| (n >>> 12), 0x80 ||| ((n >>> 6) &&& 0x3F), 0x80 ||| (n &&& 0x3F)]
  else
    [0xF0 ||| (n >>> 18), 0x80 ||| ((n >>> 12) &&& 0x3F),
     0x80 ||| ((n >>> 6) &&& 0x3F), 0x80 ||| (n &&& 0x3F)]

/-- UTF-8 bytes of a string. -/
def utf8Bytes (s : String) : List Nat :=
  s.data.foldr (fun c acc => utf8EncChar c ++ acc) []

/-- The bytes `<str as Hash>::hash` feeds the hasher: UTF-8 bytes, then a
`0xff` terminator. -/
def strHashBytes (s : String) : List Nat :=
  utf8Bytes s ++ [0xff]

/-- Little-endian bytes of a `usize` (`Hasher::write_usize` on a 64-bit
target), as written by the slice length prefix. -/
def usizeBytes (n : Nat) : List Nat :=
  [n % 256, n / 256 % 256, n / 256 ^ 2 % 256, n / 256 ^ 3 % 256,
   n / 256 ^ 4 % 256, n / 256 ^ 5 % 256, n / 256 ^ 6 % 256, n / 256 ^ 7 % 256]

/-- Little-endian bytes of a `u32` (`Hasher::write_u32`). -/
def u32Bytes (n : Nat) : List Nat :=
  [n % 256, n / 256 % 256, n / 256 ^ 2 % 256, n / 256 ^ 3 % 256]

/-- The bytes `<[String] as Hash>::hash` feeds the hasher: the length prefix
followed by each element's bytes. -/
def sliceHashBytes (ids : List String) : List Nat :=
  usizeBytes ids.length ++ ids.foldr (fun s acc => strHashBytes s ++ acc) []

/-- Lowercase-hex rendering of a `u64`, as produced by `format!` with the
`x` format spec (no leading zeros; `0` renders as `"0"`). -/
def toHex (n : Nat) : String :=
  String.mk (Nat.toDigits 16 n)

/-- Embeds `CacheKey::hash_node_ids` (cache.rs, lines 56-63). -/
def CacheKey.hash_node_ids (ids : List String) : String :=
  toHex (siphash13 (sliceHashBytes ids))

/-- Embeds `CacheKey::hash_export_params` (cache.rs, lines 66-75).  `scaleBits` is
`scale.to_bits()`, the IEEE-754 bit pattern of the `f32` scale — the only way
the float enters the hash. -/
def CacheKey.hash_export_params (ids : List String) (format : String)
    (scaleBits : Nat) : String :=
  toHex (siphash13 (sliceHashBytes ids ++ strHashBytes format ++ u32Bytes scaleBits))

/-! ## Two-tier cache (src/api/cache.rs) -/

/-- Embeds `CacheKey` (cache.rs, lines 15-36). -/
inductive CacheKey where
  | File (key : String)
  | FileMeta (key : String)
  | Nodes (file : String) (nodes : String)
  | Images (file : String) (params : String)
  | Versions (key : String)
  | TeamProjects (team : String)
  | ProjectFiles (project : String)
  | TeamComponents (team : String)
  | TeamStyles (team : String)
  | Component (key : String)
deriving DecidableEq, Repr

/-- Embeds `CacheKey::as_string` (cache.rs, lines 40-53). -/
def CacheKey.as_string : CacheKey → String
  | CacheKey.File key => "file:" ++ key
  | CacheKey.FileMeta key => "file_meta:" ++ key
  | CacheKey.Nodes file nodes => "nodes:" ++ file ++ ":" ++ nodes
  | CacheKey.Images file params => "images:" ++ file ++ ":" ++ params
  | CacheKey.Versions key => "versions:" ++ key
  | CacheKey.TeamProjects team => "team_projects:" ++ team
  | CacheKey.ProjectFiles project => "project_files:" ++ project
  | CacheKey.TeamComponents team => "team_components:" ++ team
  | CacheKey.TeamStyles team => "team_styles:" ++ team
  | CacheKey.Component key => "component:" ++ key

/-- Embeds `CachedEntry` (cache.rs, lines 80-87): serialized payload, fetch
timestamp (`i64` Unix seconds), TTL in seconds (`u64`). -/
structure CachedEntry where
  data : String
  fetched_at : Int
  ttl_seconds : Nat
deriving DecidableEq, Repr

/-- Embeds `CachedEntry::is_valid` (cache.rs, lines 91-95), with the wall clock
passed explicitly: `now - fetched_at < ttl_seconds`. -/
def CachedEntry.is_valid (e : CachedEntry) (now : Int) : Bool :=
  now - e.fetched_at < (e.ttl_seconds : Int)

/-- Association-list lookup by key (first match wins), modelling a map tier. -/
def alookup {β : Type} (k : String) : List (String × β) → Option β
  | [] => none
  | p :: rest => if p.1 = k then some p.2 else alookup k rest

/-- Map insert/replace (`moka::sync::Cache::insert`, `fs::write`). -/
def ainsert {β : Type} (k : String) (v : β) (l : List (String × β)) :
    List (String × β) :=
  (k, v) :: l.filter (fun p => !(p.1 == k))

/-- Map removal (`moka::sync::Cache::invalidate`, `fs::remove_file`). -/
def aerase {β : Type} (k : String) (l : List (String × β)) :
    List (String × β) :=
  l.filter (fun p => !(p.1 == k))

/-- The global `time_to_live` ceiling of the moka memory tier, in seconds
(cache.rs, line 149: `Duration::from_secs(3600)` — "Global 1 hour max TTL").
It applies to every memory entry independently of the entry's own TTL. -/
def MOKA_TTL_SECS : Nat := 3600

/-- The `max_capacity` of the moka memory tier (cache.rs, line 148). -/
def MOKA_MAX_CAPACITY : Nat := 1000

/-- An entry as it lives in the moka memory tier: the cached entry together
with the instant moka recorded when the entry was (re)inserted.  moka's
`time_to_live` makes the entry observable only while
`now - inserted_at < MOKA_TTL_SECS`. -/
structure MokaEntry where
  entry : CachedEntry
  inserted_at : Int
deriving DecidableEq, Repr

/-- Embeds the `FigmaCache` state (cache.rs, lines 132-139).  `memory` models the
moka tier: a map whose entries carry their moka insertion instant, subject to
the global 1-hour `time_to_live` ceiling of `FigmaCache::new` — a
ceiling-expired entry is never returned and is dropped on the access that
finds it expired (moka removes expired entries during the housekeeping its
reads and writes trigger).  moka performs no eviction while the cache is
below `max_capacity`; the 1000-entry bound therefore appears as an explicit
hypothesis in the theorems that assert a memory-tier hit, since the
over-capacity TinyLFU admission/eviction policy is internal to the library.
`disk` maps sanitized filenames to the `CachedEntry` their JSON file
deserializes to. -/
structure FigmaCache where
  memory : List (String × MokaEntry)
  disk : List (String × CachedEntry)
  disk_enabled : Bool
deriving DecidableEq, Repr

/-- Embeds `FigmaCache::new` (cache.rs, lines 146-164): empty tiers; disk enabled
iff a disk path was supplied (directory creation is a filesystem effect with
no bearing on the map model). -/
def FigmaCache.new (disk_path : Option String) : FigmaCache :=
  { memory := [], disk := [], disk_enabled := disk_path.isSome }

/-- Embeds `FigmaCache::memory_only` (cache.rs, lines 167-169). -/
def FigmaCache.memory_only : FigmaCache :=
  FigmaCache.new none

/-- The filename sanitization inside `FigmaCache::disk_key_path` (cache.rs,
lines 311-321): `:`, `/`, `\`, and space become `_`, then `.json` is
appended. -/
def disk_key_path (key : String) : String :=
  String.mk
    (key.data.map
      (fun c => if c = ':' ∨ c = '/' ∨ c = '\\' ∨ c = ' ' then '_' else c))
    ++ ".json"

/-- Embeds `FigmaCache::read_disk` (cache.rs, lines 323-327): `None` when disk is
not configured, the file is missing, or (not modelled — files only ever hold
entries written by `write_disk`) fails to parse. -/
def FigmaCache.read_disk (c : FigmaCache) (key : String) : Option CachedEntry :=
  if c.disk_enabled then alookup (disk_key_path key) c.disk else none

/-- Embeds `FigmaCache::write_disk` (cache.rs, lines 329-337). -/
def FigmaCache.write_disk (c : FigmaCache) (key : String) (e : CachedEntry) :
    FigmaCache :=
  { c with disk := ainsert (disk_key_path key) e c.disk }

/-- Embeds `FigmaCache::delete_disk` (cache.rs, lines 339-343). -/
def FigmaCache.delete_disk (c : FigmaCache) (key : String) : FigmaCache :=
  { c with disk := aerase (disk_key_path key) c.disk }

/-- The disk-tier block of `FigmaCache::get` (cache.rs, lines 190-202),
reached when the moka tier returned nothing: on a valid disk entry,
deserialize, promote into the memory tier (a fresh moka insertion at instant
`now`) and return; on an expired disk entry, delete its file. -/
def FigmaCache.get_disk {V : Type} (dec : String → Option V) (c : FigmaCache)
    (key_str : String) (now : Int) : Option V × FigmaCache :=
  match c.read_disk key_str with
  | some dentry =>
    if dentry.is_valid now then
      (dec dentry.data, { c with memory := ainsert key_str ⟨dentry, now⟩ c.memory })
    else
      (none, c.delete_disk key_str)
  | none => (none, c)

/-- Embeds `FigmaCache::get` (cache.rs, lines 177-205), with the deserializer
`dec` (`serde_json::from_str::<T>(..).ok()`) and the clock passed explicitly.
Returns the value (if any) and the new cache state.  `self.memory.get`
returns an entry only while its moka `time_to_live` has not elapsed; an entry
past the ceiling is not returned and moka drops it on that access, after
which the code falls through to the disk tier exactly as on a plain miss.  A
ceiling-alive entry whose own TTL has expired is removed by the explicit
`memory.invalidate` before the same fall-through. -/
def FigmaCache.get {V : Type} (dec : String → Option V) (c : FigmaCache)
    (key : CacheKey) (now : Int) : Option V × FigmaCache :=
  let key_str := key.as_string
  match alookup key_str c.memory with
  | some me =>
    if now - me.inserted_at < (MOKA_TTL_SECS : Int) then
      if me.entry.is_valid now then
        (dec me.entry.data, c)
      else
        -- Expired in memory, remove it; then fall through to the disk tier.
        FigmaCache.get_disk dec { c with memory := aerase key_str c.memory }
          key_str now
    else
      -- Past the moka ceiling: `memory.get` returns None and drops the entry.
      FigmaCache.get_disk dec { c with memory := aerase key_str c.memory }
        key_str now
  | none => FigmaCache.get_disk dec c key_str now

/-- Embeds `FigmaCache::set` (cache.rs, lines 208-231), with the serializer `enc`
(`serde_json::to_string`; `none` models a serialization failure, on which the
cache is left untouched) and the clock passed explicitly.  The memory insert
is a fresh moka insertion at instant `now`. -/
def FigmaCache.set {V : Type} (enc : V → Option String) (c : FigmaCache)
    (key : CacheKey) (value : V) (ttl : Nat) (now : Int) : FigmaCache :=
  match enc value with
  | none => c
  | some data =>
    let key_str := key.as_string
    let entry : CachedEntry := ⟨data, now, ttl⟩
    let c := { c with memory := ainsert key_str ⟨entry, now⟩ c.memory }
    if c.disk_enabled then c.write_disk key_str entry else c

/-- Embeds `FigmaCache::invalidate` (cache.rs, lines 234-241). -/
def FigmaCache.invalidate (c : FigmaCache) (key : CacheKey) : FigmaCache :=
  let key_str := key.as_string
  let c := { c with memory := aerase key_str c.memory }
  if c.disk_enabled then c.delete_disk key_str else c

/-- Tests whether `pat` is a leading segment of `hay` (character-wise). -/
def leadsWith : List Char → List Char → Bool
  | [], _ => true
  | _ :: _, [] => false
  | a :: as, b :: bs => a == b && leadsWith as bs

/-- Tests whether `pat` occurs as a contiguous substring of `hay`. -/
def subOccurs (pat : List Char) : List Char → Bool
  | [] => leadsWith pat []
  | h :: t => leadsWith pat (h :: t) || subOccurs pat t

/-- Rust's `str::contains` with a string pattern (substring containment;
byte-level matches of valid UTF-8 always fall on character boundaries, so
character-level containment is equivalent). -/
def strContains (hay pat : String) : Bool :=
  subOccurs pat.data hay.data

/-- Embeds `FigmaCache::invalidate_file` (cache.rs, lines 244-261): empties the
whole memory tier (`invalidate_all`), and when disk is enabled deletes
exactly the files whose name contains `file_key`. -/
def FigmaCache.invalidate_file (c : FigmaCache) (file_key : String) : FigmaCache :=
  let c := { c with memory := [] }
  if c.disk_enabled then
    { c with disk := c.disk.filter (fun p => !(strContains p.1 file_key)) }
  else
    c

/-- Embeds `FigmaCache::clear` (cache.rs, lines 264-275): empties the memory tier
and, when a disk path is configured, removes and recreates the directory. -/
def FigmaCache.clear (c : FigmaCache) : FigmaCache :=
  { c with memory := [], disk := if c.disk_enabled then [] else c.disk }

/-- Embeds `FigmaCache::contains` (cache.rs, lines 289-307): valid entry in either
tier, without promotion; the memory tier answers only within the moka
ceiling. -/
def FigmaCache.contains (c : FigmaCache) (key : CacheKey) (now : Int) : Bool :=
  let key_str := key.as_string
  (match alookup key_str c.memory with
   | some me =>
     decide (now - me.inserted_at < (MOKA_TTL_SECS : Int)) && me.entry.is_valid now
   | none => false) ||
  (match c.read_disk key_str with
   | some entry => entry.is_valid now
   | none => false)

/-- The `RateLimiter` states reachable through its public API: construction
(`new`, `with_config`) followed by any sequence of the mutating operations
(`parse_headers`, `wait_and_retry`, `reset`).  These are exactly the calls
`FigmaClient::execute_request` makes under the mutex. -/
inductive RLReachable : RateLimiter → Prop where
  | new : RLReachable RateLimiter.new
  | config (N B M : Nat) : RLReachable (RateLimiter.with_config N B M)
  | parse (rl : RateLimiter) (resp : HttpResponse) :
      RLReachable rl → RLReachable (rl.parse_headers resp).2
  | wait (rl : RateLimiter) : RLReachable rl → RLReachable rl.wait_and_retry.2
  | reset (rl : RateLimiter) : RLReachable rl → RLReachable rl.reset

/-! ## Helper lemmas -/

theorem alookup_ainsert_self {β : Type} (k : String) (v : β)
    (l : List (String × β)) : alookup k (ainsert k v l) = some v := by
  simp [alookup, ainsert]

theorem alookup_aerase_self {β : Type} (k : String) (l : List (String × β)) :
    alookup k (aerase k l) = none := by
  induction l with
  | nil => rfl
  | cons p rest ih =>
    by_cases h : p.1 = k
    · simpa [aerase, List.filter_cons, h] using ih
    · simpa [aerase, List.filter_cons, alookup, h] using ih

theorem alookup_filter_strContains {β : Type} (fk name : String)
    (l : List (String × β)) :
    alookup name (l.filter (fun p => !(strContains p.1 fk)))
      = if strContains name fk then none else alookup name l := by
  induction l with
  | nil => cases h : strContains name fk <;> simp [alookup, h]
  | cons p rest ih =>
    by_cases hc : strContains p.1 fk
    · by_cases hn : p.1 = name
      · subst hn
        simp [List.filter_cons, hc, ih]
      · simp [List.filter_cons, hc, alookup, hn, ih]
    · by_cases hn : p.1 = name
      · subst hn
        simp [List.filter_cons, hc, alookup]
      · simp [List.filter_cons, hc, alookup, hn, ih]

theorem countHttp_append (a b : List Event) :
    countHttp (a ++ b) = countHttp a + countHttp b := by
  induction a with
  | nil => simp [countHttp]
  | cons e a ih =>
    cases e
    case httpCall => simp [countHttp, ih]; omega
    all_goals simp [countHttp, ih]

theorem countHttp_proactive (rl : RateLimiter) :
    countHttp (proactivePhase rl) = 0 := by
  cases h : rl.should_throttle <;> simp [proactivePhase, h, countHttp]

theorem countHttp_if_proactive (b : Bool) :
    countHttp (if b then [Event.proactiveSleep] else []) = 0 := by
  cases b <;> rfl

theorem countHttp_if_backoff (b : Bool) :
    countHttp (if b then [Event.backoffSleep] else []) = 0 := by
  cases b <;> rfl

theorem executeRequest_exhausts (resps : List HttpResponse) :
    ∀ rl : RateLimiter,
      (∀ r ∈ resps, r.status = 429) →
      rl.retry_count ≤ rl.max_retries →
      resps.length = rl.max_retries - rl.retry_count + 1 →
      (executeRequest rl resps).result = ExecResult.rateLimitExceeded ∧
        countHttp (executeRequest rl resps).trace = resps.length := by
  induction resps with
  | nil =>
    intro rl _ _ hlen
    exact absurd hlen (by simp)
  | cons resp rest ih =>
    rintro ⟨c, N, B, M, rem, ra⟩ hall hc hlen
    have h429 : resp.status = 429 := hall resp (List.mem_cons_self _ _)
    simp only at hc
    simp only [List.length_cons] at hlen
    by_cases hge : c ≥ N
    · have hrest : rest = [] := List.length_eq_zero.mp (by omega)
      subst hrest
      simp only [executeRequest, RateLimiter.parse_headers, RateLimiter.wait_and_retry,
        h429, beq_self_eq_true, if_true]
      rw [if_pos hge]
      simp [countHttp_append, countHttp_proactive, countHttp_if_proactive, countHttp_if_backoff, countHttp]
    · have hkey := ih ⟨c + 1, N, B, M, resp.remaining, resp.retry_after⟩
        (fun r hr => hall r (List.mem_cons_of_mem _ hr))
        (by simp only; omega)
        (by simp only; omega)
      simp only [executeRequest, RateLimiter.parse_headers, RateLimiter.wait_and_retry,
        h429, beq_self_eq_true, if_true]
      rw [if_neg hge]
      refine ⟨hkey.1, ?_⟩
      simp [countHttp_append, countHttp_proactive, countHttp_if_proactive, countHttp_if_backoff, countHttp, hkey.2]

theorem executeRequest_attempt_bound (resps : List HttpResponse) :
    ∀ rl : RateLimiter,
      rl.retry_count ≤ rl.max_retries →
      countHttp (executeRequest rl resps).trace
        ≤ rl.max_retries - rl.retry_count + 1 := by
  induction resps with
  | nil =>
    intro rl _
    simp [executeRequest, countHttp_append, countHttp_proactive, countHttp_if_proactive, countHttp_if_backoff, countHttp]
  | cons resp rest ih =>
    rintro ⟨c, N, B, M, rem, ra⟩ hc
    simp only at hc
    by_cases h429 : resp.status = 429
    · by_cases hge : c ≥ N
      · simp only [executeRequest, RateLimiter.parse_headers, RateLimiter.wait_and_retry,
          h429, beq_self_eq_true, if_true]
        rw [if_pos hge]
        simp [countHttp_append, countHttp_proactive, countHttp_if_proactive, countHttp_if_backoff, countHttp]
      · have hkey := ih ⟨c + 1, N, B, M, resp.remaining, resp.retry_after⟩
          (by simp only; omega)
        simp only at hkey
        simp only [executeRequest, RateLimiter.parse_headers, RateLimiter.wait_and_retry,
          h429, beq_self_eq_true, if_true]
        rw [if_neg hge]
        simp [countHttp_append, countHttp_proactive, countHttp_if_proactive, countHttp_if_backoff, countHttp] at hkey ⊢
        omega
    · have hne : (resp.status == 429) = false := by
        simp [h429]
      simp only [executeRequest, hne, Bool.false_eq_true, if_false]
      simp [countHttp_append, countHttp_proactive, countHttp_if_proactive, countHttp_if_backoff, countHttp]

/-! ## Claim theorems -/

/-- C1 (counterexample): `calculate_delay` does NOT return
`min(base_delay * 2^retry_count, max_delay) + jitter` for EVERY retry count:
at `retry_count = 64` the `2u64.pow` wraps to 0 (only the subsequent
multiplication is saturating), so the computed delay is 0 instead of the
claimed capped value; and when the capped delay is `u64::MAX`, adding a
jitter within the claimed 25% range wraps the final `u64` addition. -/
theorem calculate_delay_wraps_at_large_exponent :
    (RateLimiter.calculate_delay ⟨64, 100, 1000, 120000, none, none⟩ 0
        ≠ min (1000 * 2 ^ 64) 120000 + 0
      ∧ RateLimiter.calculate_delay ⟨64, 100, 1000, 120000, none, none⟩ 0 = 0)
    ∧ (RateLimiter.calculate_delay ⟨1, 10, 2 ^ 63, 2 ^ 64 - 1, none, none⟩ (2 ^ 62 - 1)
        ≠ min (2 ^ 63 * 2 ^ 1) (2 ^ 64 - 1) + (2 ^ 62 - 1)
      ∧ 4 * (2 ^ 62 - 1) ≤ min (2 ^ 63 * 2 ^ 1) (2 ^ 64 - 1)) := by
  decide

/-- C1 (amended): when a server-suggested `Retry-After` was recorded from the
most recent response, `calculate_delay` returns it verbatim (as
milliseconds); otherwise, for every retry count `r ≤ 63` and 64-bit base and
max delays such that the capped delay plus the jitter fits in 64 bits, it
returns `min(base_delay * 2^r, max_delay) + jitter` where the jitter is the
random draw in `[0, 25%]` of the capped value; in particular for retry
counts 0, 1, 2 the delay minus the jitter is `base`, `2*base`, `4*base`,
each capped at the max delay. -/
theorem calculate_delay_backoff_formula :
    (∀ (rl : RateLimiter) (jitter ra : Nat), rl.retry_after = some ra →
        rl.calculate_delay jitter = ra * 1000)
    ∧ (∀ (rl : RateLimiter) (jitter : Nat), rl.retry_after = none →
        rl.retry_count ≤ 63 →
        rl.max_delay_ms < 2 ^ 64 →
        min (rl.base_delay_ms * 2 ^ rl.retry_count) rl.max_delay_ms + jitter < 2 ^ 64 →
        rl.calculate_delay jitter
          = min (rl.base_delay_ms * 2 ^ rl.retry_count) rl.max_delay_ms + jitter)
    ∧ (∀ (rl : RateLimiter) (jitter : Nat), rl.retry_after = none →
        rl.max_delay_ms < 2 ^ 64 →
        min (rl.base_delay_ms * 2 ^ rl.retry_count) rl.max_delay_ms + jitter < 2 ^ 64 →
        ((rl.retry_count = 0 →
            rl.calculate_delay jitter - jitter = min rl.base_delay_ms rl.max_delay_ms)
          ∧ (rl.retry_count = 1 →
            rl.calculate_delay jitter - jitter
              = min (2 * rl.base_delay_ms) rl.max_delay_ms)
          ∧ (rl.retry_count = 2 →
            rl.calculate_delay jitter - jitter
              = min (4 * rl.base_delay_ms) rl.max_delay_ms))) := by
  have hmain : ∀ (rl : RateLimiter) (jitter : Nat), rl.retry_after = none →
      rl.retry_count ≤ 63 → rl.max_delay_ms < 2 ^ 64 →
      min (rl.base_delay_ms * 2 ^ rl.retry_count) rl.max_delay_ms + jitter < 2 ^ 64 →
      rl.calculate_delay jitter
        = min (rl.base_delay_ms * 2 ^ rl.retry_count) rl.max_delay_ms + jitter := by
    rintro ⟨c, N, B, M, rem, rra⟩ jitter hra hc hM hsum
    simp only at hra hc hM hsum ⊢
    subst hra
    simp only [RateLimiter.calculate_delay]
    have hp : (2 ^ c) % U64MOD = 2 ^ c := by
      apply Nat.mod_eq_of_lt
      have h2 : (2 : Nat) ^ c < 2 ^ 64 := Nat.pow_lt_pow_right (by norm_num) (by omega)
      simpa [U64MOD] using h2
    rw [hp]
    have hMle : min U64MAX M = M := by
      apply min_eq_right
      simp only [U64MAX]
      omega
    rw [min_assoc, hMle]
    apply Nat.mod_eq_of_lt
    simpa [U64MOD] using hsum
  refine ⟨?_, hmain, ?_⟩
  · rintro ⟨c, N, B, M, rem, rra⟩ jitter ra hra
    simp only at hra
    subst hra
    rfl
  · rintro ⟨c, N, B, M, rem, rra⟩ jitter hra hM hsum
    simp only at hra hM hsum ⊢
    refine ⟨?_, ?_, ?_⟩ <;> intro hr <;> subst hr
    · rw [hmain ⟨0, N, B, M, rem, rra⟩ jitter hra (by simp) hM hsum]
      simp
    · rw [hmain ⟨1, N, B, M, rem, rra⟩ jitter hra (by simp) hM hsum]
      simp [Nat.mul_comm]
    · rw [hmain ⟨2, N, B, M, rem, rra⟩ jitter hra (by simp) hM hsum]
      have h4 : B * 2 ^ 2 = 4 * B := by ring
      rw [h4]
      simp

/-- C1 witness: with the default configuration, a recorded `Retry-After: 30`
yields exactly 30000 ms; with no server hint and retry count 2, jitter 100,
the delay is `min(1000 * 4, 120000) + 100 = 4100` ms and delay minus jitter
is `min(4 * 1000, 120000)`. -/
theorem calculate_delay_backoff_formula_witness :
    RateLimiter.calculate_delay ⟨0, 5, 1000, 120000, none, some 30⟩ 7 = 30000
    ∧ RateLimiter.calculate_delay ⟨2, 5, 1000, 120000, none, none⟩ 100 = 4100
    ∧ RateLimiter.calculate_delay ⟨2, 5, 1000, 120000, none, none⟩ 100 - 100
        = min (4 * 1000) 120000 := by
  refine ⟨calculate_delay_backoff_formula.1 _ 7 30 rfl, ?_, ?_⟩
  · rw [calculate_delay_backoff_formula.2.1 ⟨2, 5, 1000, 120000, none, none⟩ 100 rfl
      (by decide) (by decide) (by decide)]
    decide
  · rw [(calculate_delay_backoff_formula.2.2 ⟨2, 5, 1000, 120000, none, none⟩ 100 rfl
      (by decide) (by decide)).2.2 rfl]

/-- C2: with max retries N, feeding the executor N+1 consecutive 429
responses (the initial attempt plus its N retries, all rate-limited) makes it
return the dedicated rate-limit-exhausted error; it makes exactly N+1 HTTP
attempts (the N-th retry is the last — an (N+1)-th retry never happens, on
any response sequence), and the error is distinct from both a successful
response and a transport error. -/
theorem execute_request_retries_exhausted (N B M : Nat) (resps : List HttpResponse)
    (hall : ∀ r ∈ resps, r.status = 429) (hlen : resps.length = N + 1) :
    (executeRequest (RateLimiter.with_config N B M) resps).result
        = ExecResult.rateLimitExceeded
    ∧ countHttp (executeRequest (RateLimiter.with_config N B M) resps).trace = N + 1
    ∧ (∀ resps' : List HttpResponse,
        countHttp (executeRequest (RateLimiter.with_config N B M) resps').trace ≤ N + 1)
    ∧ (∀ resp : HttpResponse, ExecResult.rateLimitExceeded ≠ ExecResult.ok resp)
    ∧ ExecResult.rateLimitExceeded ≠ ExecResult.sendFailure := by
  have h1 := executeRequest_exhausts resps (RateLimiter.with_config N B M) hall
    (by simp [RateLimiter.with_config]) (by simp [RateLimiter.with_config, hlen])
  refine ⟨h1.1, by rw [h1.2, hlen], ?_, by intro r; simp, by simp⟩
  intro resps'
  have h2 := executeRequest_attempt_bound resps' (RateLimiter.with_config N B M)
    (by simp [RateLimiter.with_config])
  simpa [RateLimiter.with_config] using h2

/-- C2 witness: with max retries 1, two consecutive 429 responses exhaust the
executor: it reports the rate-limit error after exactly 2 HTTP attempts. -/
theorem execute_request_retries_exhausted_witness :
    (executeRequest (RateLimiter.with_config 1 1000 120000)
        [⟨429, none, none⟩, ⟨429, none, none⟩]).result = ExecResult.rateLimitExceeded
    ∧ countHttp (executeRequest (RateLimiter.with_config 1 1000 120000)
        [⟨429, none, none⟩, ⟨429, none, none⟩]).trace = 2 := by
  have h := execute_request_retries_exhausted 1 1000 120000
    [⟨429, none, none⟩, ⟨429, none, none⟩] (by decide) rfl
  exact ⟨h.1, h.2.1⟩

/-- C3: evaluating the executor on a concrete failing input — a fresh client
receiving a 429 (carrying `X-RateLimit-Remaining: 5`) and then a 200 —
refutes the claim on the code: the inter-retry backoff sleep (inside
`wait_and_retry().await`) and the proactive 500 ms throttle sleep (inside
`proactive_delay().await`) both happen at mutex depth 1, i.e. while the
rate-limiter lock is held, so `suspensionsOutsideLock` is false; every sleep
in the run is under the lock, while every outbound HTTP call is indeed
outside the lock. -/
theorem execute_request_sleeps_inside_lock :
    suspensionsOutsideLock
        (executeRequest RateLimiter.new
          [⟨429, some 5, none⟩, ⟨200, none, none⟩]).trace = false
    ∧ sleepsUnderLock
        (executeRequest RateLimiter.new
          [⟨429, some 5, none⟩, ⟨200, none, none⟩]).trace = true
    ∧ httpOutsideLock
        (executeRequest RateLimiter.new
          [⟨429, some 5, none⟩, ⟨200, none, none⟩]).trace = true := by
  decide

/-- C4 (counterexample): in a memory-only cache the claimed guarantee fails
for TTLs above moka's 1-hour ceiling: setting with TTL 7200 at time 0 and
reading at time 3700 — still strictly before the TTL has elapsed — returns
nothing, because the memory tier's global `time_to_live(3600)` has expired
the entry and no disk tier exists. -/
theorem cache_set_get_misses_beyond_moka_ceiling :
    ((FigmaCache.set (fun s => some (s : String)) FigmaCache.memory_only
        (CacheKey.File "big") "v" 7200 0).get (fun s => some s)
        (CacheKey.File "big") 3700).1 = none
    ∧ ((3700 : Int) - 0 < ((7200 : Nat) : Int)) := by
  decide

/-- C4 (amended): for every key K, serializable value V (one whose encoding
succeeds and decodes back to V), and TTL T, `set(K, V, T)` followed by
`get(K)` before T has elapsed (with no intervening operation) returns V,
provided the read also falls within the memory tier's 1-hour moka ceiling
(and the tier is below its 1000-entry capacity); when the disk tier is
enabled the guarantee holds throughout T, the disk tier serving reads past
the memory ceiling. -/
theorem cache_set_then_get {V : Type} (enc : V → Option String)
    (dec : String → Option V) (c : FigmaCache) (k : CacheKey) (v : V)
    (ttl : Nat) (now later : Int) (s : String)
    (henc : enc v = some s) (hdec : dec s = some v)
    (hfresh : later - now < (ttl : Int)) :
    (later - now < (MOKA_TTL_SECS : Int) → c.memory.length < MOKA_MAX_CAPACITY →
      ((FigmaCache.set enc c k v ttl now).get dec k later).1 = some v)
    ∧ (c.disk_enabled = true →
      ((FigmaCache.set enc c k v ttl now).get dec k later).1 = some v) := by
  have hv : (⟨s, now, ttl⟩ : CachedEntry).is_valid later = true := by
    simp [CachedEntry.is_valid]
    exact hfresh
  constructor
  · intro hceil hcap
    simp only [FigmaCache.set]
    rw [henc]
    simp only [FigmaCache.get, FigmaCache.write_disk]
    by_cases hd : c.disk_enabled <;>
      simp [hd, alookup_ainsert_self, hv, hdec, hceil]
  · intro hd
    simp only [FigmaCache.set]
    rw [henc]
    simp only [FigmaCache.get, FigmaCache.get_disk, FigmaCache.write_disk,
      FigmaCache.read_disk]
    by_cases hceil : later - now < (MOKA_TTL_SECS : Int) <;>
      simp [hd, alookup_ainsert_self, alookup_aerase_self, hv, hdec, hceil]

/-- C4 witness: storing "test_value" under `File("test123")` with TTL 60 in
a memory-only cache and reading one second later returns the value; and in a
disk-backed cache an entry with TTL 7200 set at time 0 is still served at
time 3700 — past the memory ceiling — via the disk tier. -/
theorem cache_set_then_get_witness :
    ((FigmaCache.set (fun s => some s) FigmaCache.memory_only (CacheKey.File "test123")
        "test_value" 60 0).get (fun s => some s) (CacheKey.File "test123") 1).1
      = some "test_value"
    ∧ ((FigmaCache.set (fun s => some (s : String)) (FigmaCache.new (some "cache"))
        (CacheKey.File "big") "v" 7200 0).get (fun s => some s)
        (CacheKey.File "big") 3700).1 = some "v" := by
  refine ⟨(cache_set_then_get (fun s => some s) (fun s => some s) FigmaCache.memory_only
      (CacheKey.File "test123") "test_value" 60 0 1 "test_value" rfl rfl (by decide)).1
      (by decide) (by decide),
    (cache_set_then_get (fun s => some s) (fun s => some s) (FigmaCache.new (some "cache"))
      (CacheKey.File "big") "v" 7200 0 3700 "v" rfl rfl (by decide)).2 rfl⟩

/-- C5: `get` on a fresh cache returns nothing; `get` returns nothing
whenever neither tier holds the key; and after `invalidate(K)` the entry is
gone from the memory tier, gone from the disk tier (when disk is enabled),
and `get(K)` returns nothing. -/
theorem cache_get_unset_and_invalidate {V : Type} (dec : String → Option V) :
    (∀ (dp : Option String) (k : CacheKey) (now : Int),
        ((FigmaCache.new dp).get dec k now).1 = none)
    ∧ (∀ (c : FigmaCache) (k : CacheKey) (now : Int),
        alookup k.as_string c.memory = none →
        alookup (disk_key_path k.as_string) c.disk = none →
        (c.get dec k now).1 = none)
    ∧ (∀ (c : FigmaCache) (k : CacheKey) (now : Int),
        ((c.invalidate k).get dec k now).1 = none
        ∧ alookup k.as_string (c.invalidate k).memory = none
        ∧ (c.disk_enabled = true →
            alookup (disk_key_path k.as_string) (c.invalidate k).disk = none)) := by
  refine ⟨?_, ?_, ?_⟩
  · intro dp k now
    cases dp <;>
      simp [FigmaCache.new, FigmaCache.get, FigmaCache.get_disk,
        FigmaCache.read_disk, alookup]
  · intro c k now hm hd
    simp only [FigmaCache.get, FigmaCache.get_disk, FigmaCache.read_disk]
    rw [hm]
    by_cases hde : c.disk_enabled <;> simp [hde, hd]
  · intro c k now
    obtain ⟨mem, dsk, de⟩ := c
    cases de <;>
      simp [FigmaCache.invalidate, FigmaCache.delete_disk, FigmaCache.get,
        FigmaCache.get_disk, FigmaCache.read_disk, alookup_aerase_self]

/-- C5 witness: a fresh disk-backed cache misses on `File("nonexistent")`; a
cache holding neither tier entry for `File("x")` misses; and after setting
then invalidating `File("test")` in a disk-backed cache, the memory entry,
the disk entry and the `get` result are all gone. -/
theorem cache_get_unset_and_invalidate_witness :
    (((FigmaCache.new (some "cache")).get (fun s => some s)
        (CacheKey.File "nonexistent") 0).1 = (none : Option String))
    ∧ ((FigmaCache.memory_only.get (fun s => some s) (CacheKey.File "x") 5).1
        = (none : Option String))
    ∧ ((((FigmaCache.set (fun s => some s) (FigmaCache.new (some "cache"))
          (CacheKey.File "test") "value" 60 0).invalidate (CacheKey.File "test")).get
          (fun s => some s) (CacheKey.File "test") 0).1 = (none : Option String))
    ∧ alookup (disk_key_path (CacheKey.File "test").as_string)
        ((FigmaCache.set (fun s => some s) (FigmaCache.new (some "cache"))
          (CacheKey.File "test") "value" 60 0).invalidate (CacheKey.File "test")).disk
        = none := by
  refine ⟨(cache_get_unset_and_invalidate (fun s => some s)).1 (some "cache") _ 0,
    (cache_get_unset_and_invalidate (fun s => some s)).2.1 FigmaCache.memory_only
      (CacheKey.File "x") 5 rfl rfl, ?_, ?_⟩
  · exact ((cache_get_unset_and_invalidate (fun s => some s)).2.2 _ (CacheKey.File "test") 0).1
  · exact ((cache_get_unset_and_invalidate (fun s => some s)).2.2
      (FigmaCache.set (fun s => some s) (FigmaCache.new (some "cache"))
        (CacheKey.File "test") "value" 60 0) (CacheKey.File "test") 0).2.2 rfl

/-- C7: when the memory tier misses on K but the disk tier holds a valid
entry, `get` returns its (decoded) value AND writes the entry into the
memory tier (a fresh moka insertion at the promotion instant), so a
subsequent lookup on the resulting state with the disk tier disabled still
succeeds — at any instant within both the entry's own TTL and the memory
tier's 1-hour moka ceiling (counted from the promotion), the tier being
below capacity. -/
theorem cache_disk_promotion {V : Type} (dec : String → Option V)
    (c : FigmaCache) (k : CacheKey) (e : CachedEntry) (v : V) (now later : Int)
    (hm : alookup k.as_string c.memory = none)
    (hde : c.disk_enabled = true)
    (hdisk : alookup (disk_key_path k.as_string) c.disk = some e)
    (hv : e.is_valid now = true)
    (hdec : dec e.data = some v)
    (hv2 : e.is_valid later = true)
    (_hcap : c.memory.length < MOKA_MAX_CAPACITY)
    (hceil : later - now < (MOKA_TTL_SECS : Int)) :
    (c.get dec k now).1 = some v
    ∧ alookup k.as_string ((c.get dec k now).2).memory = some ⟨e, now⟩
    ∧ ((⟨((c.get dec k now).2).memory, ((c.get dec k now).2).disk, false⟩ : FigmaCache).get
        dec k later).1 = some v := by
  have hrun : c.get dec k now
      = (dec e.data, ⟨ainsert k.as_string ⟨e, now⟩ c.memory, c.disk, c.disk_enabled⟩) := by
    simp only [FigmaCache.get, FigmaCache.get_disk, FigmaCache.read_disk]
    rw [hm, hde]
    simp [hdisk, hv]
  rw [hrun]
  refine ⟨hdec, alookup_ainsert_self _ _ _, ?_⟩
  simp only [FigmaCache.get]
  simp [alookup_ainsert_self, hv2, hdec, hceil]

/-- C7 witness: a cache whose disk tier alone holds a valid entry for
`File("abc123")` (file `file_abc123.json`) serves the value on `get`,
promotes the entry into the memory tier, and a follow-up memory-only lookup
one second later succeeds. -/
theorem cache_disk_promotion_witness :
    ((⟨[], [("file_abc123.json", ⟨"payload", 0, 300⟩)], true⟩ : FigmaCache).get
        (fun s => some s) (CacheKey.File "abc123") 1).1 = some "payload"
    ∧ ((⟨((((⟨[], [("file_abc123.json", ⟨"payload", 0, 300⟩)], true⟩ : FigmaCache).get
          (fun s => some (s : String)) (CacheKey.File "abc123") 1).2)).memory,
        ((((⟨[], [("file_abc123.json", ⟨"payload", 0, 300⟩)], true⟩ : FigmaCache).get
          (fun s => some (s : String)) (CacheKey.File "abc123") 1).2)).disk,
        false⟩ : FigmaCache).get (fun s => some s) (CacheKey.File "abc123") 2).1
      = some "payload" := by
  have h := cache_disk_promotion (fun s => some (s : String))
    ⟨[], [("file_abc123.json", ⟨"payload", 0, 300⟩)], true⟩
    (CacheKey.File "abc123") ⟨"payload", 0, 300⟩ "payload" 1 2
    rfl rfl (by decide) (by decide) rfl (by decide) (by decide) (by decide)
  exact ⟨h.1, h.2.2⟩

/-- C8: an entry whose age has reached its TTL (validity on read is
`now - fetched_at < ttl`) is treated as absent by `get` and actively
evicted: the expired memory entry is removed from the memory tier (whether
the explicit invalidate on a ceiling-alive entry or moka dropping a
ceiling-expired one) and the expired disk entry's file is deleted. -/
theorem cache_expiry_evicts {V : Type} (dec : String → Option V)
    (c : FigmaCache) (k : CacheKey) (me : MokaEntry) (ed : CachedEntry) (now : Int)
    (hm : alookup k.as_string c.memory = some me)
    (hmv : me.entry.is_valid now = false)
    (hde : c.disk_enabled = true)
    (hdisk : alookup (disk_key_path k.as_string) c.disk = some ed)
    (hdv : ed.is_valid now = false) :
    (c.get dec k now).1 = none
    ∧ alookup k.as_string ((c.get dec k now).2).memory = none
    ∧ alookup (disk_key_path k.as_string) ((c.get dec k now).2).disk = none
    ∧ (∀ (e : CachedEntry) (t : Int),
        e.is_valid t = true ↔ t - e.fetched_at < (e.ttl_seconds : Int)) := by
  have hrun : c.get dec k now
      = (none, ⟨aerase k.as_string c.memory,
          aerase (disk_key_path k.as_string) c.disk, c.disk_enabled⟩) := by
    simp only [FigmaCache.get, FigmaCache.get_disk, FigmaCache.read_disk,
      FigmaCache.delete_disk]
    rw [hm]
    by_cases hceil : now - me.inserted_at < (MOKA_TTL_SECS : Int) <;>
      simp [hceil, hmv, hde, hdisk, hdv]
  rw [hrun]
  exact ⟨rfl, alookup_aerase_self _ _, alookup_aerase_self _ _,
    fun e t => by simp [CachedEntry.is_valid]⟩

/-- C8 witness: an entry with TTL 1 fetched at time 0, present in both
tiers, is reported absent at time 5 and both tier entries are evicted by
that `get`. -/
theorem cache_expiry_evicts_witness :
    ((⟨[("file:k", ⟨⟨"old", 0, 1⟩, 0⟩)], [("file_k.json", ⟨"old", 0, 1⟩)], true⟩
        : FigmaCache).get (fun s => some s) (CacheKey.File "k") 5).1
      = (none : Option String)
    ∧ alookup "file:k"
        (((⟨[("file:k", ⟨⟨"old", 0, 1⟩, 0⟩)], [("file_k.json", ⟨"old", 0, 1⟩)], true⟩
          : FigmaCache).get (fun s => some (s : String)) (CacheKey.File "k") 5).2).memory
      = none := by
  have h := cache_expiry_evicts (fun s => some (s : String))
    ⟨[("file:k", ⟨⟨"old", 0, 1⟩, 0⟩)], [("file_k.json", ⟨"old", 0, 1⟩)], true⟩
    (CacheKey.File "k") ⟨⟨"old", 0, 1⟩, 0⟩ ⟨"old", 0, 1⟩ 5
    (by decide) (by decide) rfl (by decide) (by decide)
  exact ⟨h.1, h.2.1⟩

/-- C9: `invalidate_file` empties the ENTIRE memory tier regardless of key,
while on the disk tier (when enabled) it removes exactly the files whose
name contains the given identifier as a substring, leaving all other files
unchanged; with the disk tier disabled the disk map is untouched. -/
theorem invalidate_file_over_invalidation (c : FigmaCache) (fk : String) :
    (c.invalidate_file fk).memory = []
    ∧ (c.disk_enabled = true →
        ∀ name : String,
          alookup name (c.invalidate_file fk).disk
            = if strContains name fk then none else alookup name c.disk)
    ∧ (c.disk_enabled = false → (c.invalidate_file fk).disk = c.disk) := by
  obtain ⟨mem, dsk, de⟩ := c
  refine ⟨?_, ?_, ?_⟩
  · cases de <;> simp [FigmaCache.invalidate_file]
  · intro hde name
    subst hde
    simp [FigmaCache.invalidate_file, alookup_filter_strContains]
  · intro hde
    subst hde
    simp [FigmaCache.invalidate_file]

/-- C9 witness: invalidating file key "abc" on a cache with one memory entry
and disk files `file_abc.json` and `other.json` empties the memory tier,
deletes `file_abc.json` (name contains "abc"), and leaves `other.json`. -/
theorem invalidate_file_over_invalidation_witness :
    ((⟨[("m", ⟨⟨"d", 0, 60⟩, 0⟩)],
        [("file_abc.json", ⟨"d", 0, 60⟩), ("other.json", ⟨"d", 0, 60⟩)],
        true⟩ : FigmaCache).invalidate_file "abc").memory = []
    ∧ alookup "file_abc.json"
        ((⟨[("m", ⟨⟨"d", 0, 60⟩, 0⟩)],
          [("file_abc.json", ⟨"d", 0, 60⟩), ("other.json", ⟨"d", 0, 60⟩)],
          true⟩ : FigmaCache).invalidate_file "abc").disk = none
    ∧ alookup "other.json"
        ((⟨[("m", ⟨⟨"d", 0, 60⟩, 0⟩)],
          [("file_abc.json", ⟨"d", 0, 60⟩), ("other.json", ⟨"d", 0, 60⟩)],
          true⟩ : FigmaCache).invalidate_file "abc").disk = some ⟨"d", 0, 60⟩ := by
  have h := invalidate_file_over_invalidation
    ⟨[("m", ⟨⟨"d", 0, 60⟩, 0⟩)],
      [("file_abc.json", ⟨"d", 0, 60⟩), ("other.json", ⟨"d", 0, 60⟩)], true⟩
    "abc"
  refine ⟨h.1, ?_, ?_⟩
  · have h2 := h.2.1 rfl "file_abc.json"
    rw [h2]
    decide
  · have h3 := h.2.1 rfl "other.json"
    rw [h3]
    decide

/-- C6: hashing is deterministic (a pure function of the ordered list — the
hasher is `DefaultHasher::new()` with fixed keys, so repeated hashing of the
same list yields the same hex string); it is order-sensitive (swapping the
two node ids of the repository's own test changes the hash); and
`hash_export_params` folds the format string and the scale's bit pattern
into the same hash, so the same node list with a different format, or a
different scale (2.0 vs 1.0), hashes differently. -/
theorem hash_node_ids_properties :
    (∀ ids : List String, CacheKey.hash_node_ids ids = CacheKey.hash_node_ids ids)
    ∧ CacheKey.hash_node_ids ["1:1", "1:2"] ≠ CacheKey.hash_node_ids ["1:2", "1:1"]
    ∧ (∀ (ids : List String) (format : String) (scaleBits : Nat),
        CacheKey.hash_export_params ids format scaleBits
          = CacheKey.hash_export_params ids format scaleBits)
    ∧ CacheKey.hash_export_params ["1:1", "1:2"] "png" 0x40000000
        ≠ CacheKey.hash_export_params ["1:1", "1:2"] "svg" 0x40000000
    ∧ CacheKey.hash_export_params ["1:1", "1:2"] "png" 0x40000000
        ≠ CacheKey.hash_export_params ["1:1", "1:2"] "png" 0x3F800000 := by
  exact ⟨fun _ => rfl, by decide, fun _ _ _ => rfl, by decide, by decide⟩

/-- C10: every limiter constructed by `new` or `with_config` starts with
retry count 0, and `retry_count ≤ max_retries` holds in every state
reachable through the public operations: `wait_and_retry` increments the
count only when it is strictly below the maximum (and returns the state
unchanged otherwise), `reset` zeroes it, `parse_headers` never touches it;
consequently `2 ^ retry_count` — the exponent feeding `calculate_delay` — is
bounded by `2 ^ max_retries` in every reachable state. -/
theorem retry_count_invariant :
    (∀ rl : RateLimiter, RLReachable rl → rl.retry_count ≤ rl.max_retries)
    ∧ (∀ N B M : Nat, (RateLimiter.with_config N B M).retry_count = 0)
    ∧ RateLimiter.new.retry_count = 0
    ∧ (∀ rl : RateLimiter, rl.retry_count < rl.max_retries →
        rl.wait_and_retry = (true, { rl with retry_count := rl.retry_count + 1 }))
    ∧ (∀ rl : RateLimiter, rl.max_retries ≤ rl.retry_count →
        rl.wait_and_retry = (false, rl))
    ∧ (∀ (rl : RateLimiter) (resp : HttpResponse),
        ((rl.parse_headers resp).2).retry_count = rl.retry_count)
    ∧ (∀ rl : RateLimiter, rl.reset.retry_count = 0)
    ∧ (∀ rl : RateLimiter, RLReachable rl →
        2 ^ rl.retry_count ≤ 2 ^ rl.max_retries) := by
  have hinv : ∀ rl : RateLimiter, RLReachable rl → rl.retry_count ≤ rl.max_retries := by
    intro rl h
    induction h with
    | new => simp [RateLimiter.new]
    | config N B M => simp [RateLimiter.with_config]
    | parse rl resp _ ih => simpa [RateLimiter.parse_headers] using ih
    | wait rl _ ih =>
      by_cases hge : rl.retry_count ≥ rl.max_retries
      · simpa [RateLimiter.wait_and_retry, hge] using ih
      · simp [RateLimiter.wait_and_retry, hge]
        omega
    | reset rl _ ih => simp [RateLimiter.reset]
  refine ⟨hinv, fun N B M => rfl, rfl, ?_, ?_, fun rl resp => rfl, fun rl => rfl, ?_⟩
  · intro rl h
    unfold RateLimiter.wait_and_retry
    rw [if_neg (by omega)]
  · intro rl h
    unfold RateLimiter.wait_and_retry
    rw [if_pos (by omega)]
  · intro rl h
    exact Nat.pow_le_pow_right (by norm_num) (hinv rl h)

/-- C10 witness: the invariant holds at the freshly configured limiter; a
fresh limiter (retry count 0 < 5) retries and increments to 1; and after a
reset of a configured limiter the exponent bound holds. -/
theorem retry_count_invariant_witness :
    (RateLimiter.with_config 5 1000 120000).retry_count
        ≤ (RateLimiter.with_config 5 1000 120000).max_retries
    ∧ RateLimiter.new.wait_and_retry
        = (true, { RateLimiter.new with retry_count := 1 })
    ∧ 2 ^ ((RateLimiter.with_config 5 1000 120000).reset).retry_count
        ≤ 2 ^ ((RateLimiter.with_config 5 1000 120000).reset).max_retries := by
  refine ⟨retry_count_invariant.1 _ (RLReachable.config 5 1000 120000),
    retry_count_invariant.2.2.2.1 RateLimiter.new (by decide),
    retry_count_invariant.2.2.2.2.2.2.2 _
      (RLReachable.reset _ (RLReachable.config 5 1000 120000))⟩

/-- C2 (counterexample): with max retries N = 1, after exactly N = 1
consecutive rate-limited responses the executor does NOT report the
exhaustion error: it attempts the 1st retry (a second HTTP request), and
when that retry succeeds the run returns the response.  The error only
appears after N+1 consecutive 429s. -/
theorem execute_request_after_n_429s_still_retries :
    (executeRequest (RateLimiter.with_config 1 1000 120000)
        [⟨429, none, none⟩, ⟨200, none, none⟩]).result
      = ExecResult.ok ⟨200, none, none⟩
    ∧ (executeRequest (RateLimiter.with_config 1 1000 120000)
        [⟨429, none, none⟩, ⟨200, none, none⟩]).result ≠ ExecResult.rateLimitExceeded
    ∧ countHttp (executeRequest (RateLimiter.with_config 1 1000 120000)
        [⟨429, none, none⟩, ⟨200, none, none⟩]).trace = 2 := by
  decide
